import Mathlib

/-!
Verification of the hashed agent-governance SDK (policy engine, guarded
execution core, crash-safe audit ledger, identity) against its
natural-language specification.

The definitions below are a shallow embedding of the Python sources:

* `src/hashed/guard.py`    — `Policy`, `PolicyEngine` (local policy checks)
* `src/hashed/core.py`     — `HashedCore.guard` (the guarded-execution wrapper)
* `src/hashed/ledger.py`   — `AsyncLedger` (WAL + queue + batched delivery)
* `src/hashed/identity.py` and `src/hashed/identity_store.py` — Ed25519
  identity, encrypted persistence

Amounts are embedded as rationals (the Python code compares floats with the
ordinary total order `>`; every concrete amount in the repository is decimal,
so `ℚ` gives the same comparisons without IEEE-754 rounding artifacts).
Python dictionaries holding policies are embedded as association lists with
first-occurrence update, matching `dict.__setitem__` semantics.
-/

namespace Hashed

/-- Amounts checked against policy ceilings (Python `float`). -/
abbrev Amount := ℚ

/-! ## guard.py — Policy and PolicyEngine -/

/-- Embedding of `guard.Policy` (dataclass): a policy rule for one tool.
Field `metadata` is the free-form metadata dict (embedded as an association
list of strings; its contents never influence validation). -/
structure Policy where
  tool_name : String
  max_amount : Option Amount
  allowed : Bool
  metadata : List (String × String)
deriving DecidableEq

/-- Embedding of `Policy.validate`: `allowed` must hold, and when both an
amount and a ceiling are present the amount must be `<=` the ceiling. -/
def Policy.validate (p : Policy) (amount : Option Amount) : Bool :=
  if !p.allowed then
    false
  else
    match amount, p.max_amount with
    | some a, some m => decide (a ≤ m)
    | _, _ => true

/-- Embedding of the `PermissionError` values raised by
`PolicyEngine.validate` in `guard.py`: either the operation is disallowed
outright, or the amount exceeds the ceiling (the error carries the amount
and the maximum, mirroring the `details` dict of the Python exception). -/
inductive PermError where
  | denied (tool_name : String)
  | limitExceeded (tool_name : String) (amount : Amount) (max_amount : Amount)
deriving DecidableEq

/-- Message text of the exception (`str(e)` without the details suffix). -/
def PermError.message : PermError → String
  | .denied t => "Operation '" ++ t ++ "' is not allowed"
  | .limitExceeded t a m =>
      "Amount " ++ toString a ++ " exceeds maximum allowed " ++ toString m ++
      " for '" ++ t ++ "'"

/-- Embedding of `PolicyEngine`: the `_policies` dict and the default
policy used for unregistered tools. -/
structure PolicyEngine where
  policies : List (String × Policy)
  default_policy : Policy
deriving DecidableEq

/-- Embedding of `PolicyEngine.__init__`: empty dict, default policy
allows everything with no ceiling. -/
def PolicyEngine.init : PolicyEngine :=
  ⟨[], ⟨"default", none, true, []⟩⟩

/-- Python `dict.__setitem__` on an association list: replace the (unique)
existing binding in place, otherwise append. -/
def dictSet (l : List (String × Policy)) (k : String) (v : Policy) :
    List (String × Policy) :=
  match l with
  | [] => [(k, v)]
  | (k₁, v₁) :: rest =>
      if k₁ = k then (k, v) :: rest else (k₁, v₁) :: dictSet rest k v

/-- Embedding of `PolicyEngine.add_policy`: upsert a policy for a tool
(`allowed` defaults to `true` in the source; callers of the theorems pass
the default explicitly). -/
def PolicyEngine.add_policy (e : PolicyEngine) (tool_name : String)
    (max_amount : Option Amount) (allowed : Bool)
    (metadata : List (String × String)) : PolicyEngine :=
  let p : Policy := ⟨tool_name, max_amount, allowed, metadata⟩
  { e with policies := dictSet e.policies tool_name p }

/-- Embedding of `PolicyEngine.get_policy`: dict lookup with the default
policy as fallback. -/
def PolicyEngine.get_policy (e : PolicyEngine) (tool_name : String) : Policy :=
  (e.policies.lookup tool_name).getD e.default_policy

/-- Embedding of `PolicyEngine.validate`: raise `PermissionError` when the
policy disallows the tool, or when an amount is supplied, the policy has a
ceiling, and the amount strictly exceeds it; otherwise return `True`.
The `**context` argument of the source only lands in the exception details
and is omitted. -/
def PolicyEngine.validate (e : PolicyEngine) (tool_name : String)
    (amount : Option Amount) : Except PermError Bool :=
  let policy := e.get_policy tool_name
  if !policy.allowed then
    .error (.denied tool_name)
  else
    match amount, policy.max_amount with
    | some a, some m =>
        if a > m then .error (.limitExceeded tool_name a m) else .ok true
    | _, _ => .ok true

/-- Embedding of `PolicyEngine.check_permission`: same logic, swallowing
the exception. -/
def PolicyEngine.check_permission (e : PolicyEngine) (tool_name : String)
    (amount : Option Amount) : Bool :=
  match e.validate tool_name amount with
  | .ok b => b
  | .error _ => false

/-! ## core.py — the guarded-execution wrapper

`HashedCore.guard(tool_name, amount_param, raise_on_deny)` wraps a function.
We embed the wrapper for the local configuration (no backend HTTP client
configured, so the remote `/guard` and `/log` branches are skipped and the
local `PolicyEngine` is authoritative; the audit trail goes to the local
ledger).  Side effects of the wrapped function are embedded as an explicit
state `σ` threaded through the call; the wrapped function may either return
a result or raise (constructor `raises`), in both cases yielding its final
state.  The audit-log destination is embedded as a list of `AuditEvent`
values that the wrapper appends to (a successful `ledger.log`). -/

/-- Result of invoking the wrapped Python function: normal return or an
exception escaping it, with the function state at that point. -/
inductive FuncResult (α σ : Type) where
  | ok (result : α) (st : σ)
  | raises (msg : String) (st : σ)
deriving DecidableEq

/-- One audit event written by the wrapper (`{tool}.success`,
`{tool}.permission_denied` or `{tool}.error`). -/
structure AuditEvent where
  event_type : String
  tool_name : String
  amount : Option Amount
  info : String
deriving DecidableEq

/-- Outcome of a guarded invocation as observed by the caller. -/
inductive GuardOutcome (α : Type) where
  | success (result : α)
  | denialMessage (msg : String)
  | raisedPerm (e : PermError)
  | raisedFuncError (msg : String)
deriving DecidableEq

/-- Embedding of the amount-extraction step of `async_wrapper`:
`amount = kwargs.get(amount_param) if amount_param else None`.  Note the
Python truthiness test: a `None` or empty-string `amount_param` disables
extraction, and positional arguments are never consulted. -/
def extractAmount (amount_param : Option String)
    (kwargs : List (String × Amount)) : Option Amount :=
  match amount_param with
  | some p => if p.isEmpty then none else kwargs.lookup p
  | none => none

/-- The denial sentinel string returned by `async_wrapper` when
`raise_on_deny` is false (verbatim from `core.py`). -/
def denialString (tool_name : String) : String :=
  "[HASHED BLOCKED] Permission denied for '" ++ tool_name ++
  "': This operation is not allowed by the agent's governance policies. Inform the user you cannot perform this action."

/-- Embedding of `HashedCore.guard(...).async_wrapper` in the local
configuration (no backend client).  Control flow, in source order:
extract the amount from keyword arguments; run the local policy check;
on denial append a `{tool}.permission_denied` audit event and either
re-raise (`raise_on_deny`) or return the denial sentinel string; on
success invoke the wrapped function with the original arguments, append a
`{tool}.success` event and return the result; an exception escaping the
wrapped function is logged as `{tool}.error` and re-raised.  The signing
step (step 3 of the source) is a pure computation that does not affect
control flow or state in this configuration. -/
def guardedCall {α σ : Type} (engine : PolicyEngine) (tool_name : String)
    (amount_param : Option String) (raise_on_deny : Bool)
    (func : List Amount → List (String × Amount) → σ → FuncResult α σ)
    (args : List Amount) (kwargs : List (String × Amount))
    (st : σ) (audit : List AuditEvent) :
    GuardOutcome α × σ × List AuditEvent :=
  let amount := extractAmount amount_param kwargs
  match engine.validate tool_name amount with
  | .error e =>
      let audit₁ := audit ++
        [⟨tool_name ++ ".permission_denied", tool_name, amount, e.message⟩]
      if raise_on_deny then
        (.raisedPerm e, st, audit₁)
      else
        (.denialMessage (denialString tool_name), st, audit₁)
  | .ok _ =>
      match func args kwargs st with
      | .ok result st₁ =>
          let audit₁ := audit ++
            [⟨tool_name ++ ".success", tool_name, amount, "result"⟩]
          (.success result, st₁, audit₁)
      | .raises msg st₁ =>
          let audit₁ := audit ++
            [⟨tool_name ++ ".error", tool_name, amount, msg⟩]
          (.raisedFuncError msg, st₁, audit₁)

/-! ## Helper lemmas on the policy dictionary -/

/-- Looking up a key just set by `dictSet` yields the new value. -/
theorem dictSet_lookup_self (l : List (String × Policy)) (k : String)
    (v : Policy) : (dictSet l k v).lookup k = some v := by
  induction l with
  | nil => simp [dictSet, List.lookup]
  | cons hd tl ih =>
      obtain ⟨k₁, v₁⟩ := hd
      by_cases h : k₁ = k
      · simp [dictSet, h, List.lookup]
      · have hne : (k == k₁) = false := by
          simp only [beq_eq_false_iff_ne, ne_eq]
          exact fun hh => h hh.symm
        simp [dictSet, h, List.lookup, hne, ih]

/-- After `add_policy`, `get_policy` for that tool returns the new policy. -/
theorem add_policy_get_policy_self (e : PolicyEngine) (tool_name : String)
    (max_amount : Option Amount) (allowed : Bool)
    (metadata : List (String × String)) :
    (e.add_policy tool_name max_amount allowed metadata).get_policy tool_name
      = ⟨tool_name, max_amount, allowed, metadata⟩ := by
  simp [PolicyEngine.add_policy, PolicyEngine.get_policy, dictSet_lookup_self]

/-- The denial sentinel names the operation: it decomposes around the tool
name. -/
theorem denialString_contains_tool_name (t : String) :
    ∃ pre post, denialString t = pre ++ t ++ post :=
  ⟨"[HASHED BLOCKED] Permission denied for '",
   "': This operation is not allowed by the agent's governance policies. Inform the user you cannot perform this action.",
   rfl⟩

/-- The denial sentinel carries a denial keyword: it decomposes around the
substring "BLOCKED". -/
theorem denialString_contains_blocked (t : String) :
    ∃ pre post, denialString t = pre ++ "BLOCKED" ++ post := by
  refine ⟨"[HASHED ",
    "] Permission denied for '" ++ t ++
      "': This operation is not allowed by the agent's governance policies. Inform the user you cannot perform this action.",
    ?_⟩
  rw [denialString]
  simp only [← String.append_assoc]
  congr 1

/-! ## Claim C1 — a denied local policy check never invokes the body -/

/-- C1: for every guarded operation whose local policy check raises
`PermissionError` (operation not allowed, or amount over the ceiling), the
wrapped function body is never invoked: the function state (any side
effect, e.g. a call counter) is unchanged after the guarded invocation,
and the entire outcome is independent of the wrapped function. -/
theorem claim_C1_denied_never_invokes_body {α σ : Type}
    (engine : PolicyEngine) (tool_name : String) (amount_param : Option String)
    (raise_on_deny : Bool)
    (f g : List Amount → List (String × Amount) → σ → FuncResult α σ)
    (args : List Amount) (kwargs : List (String × Amount))
    (st : σ) (audit : List AuditEvent) (err : PermError)
    (h : engine.validate tool_name (extractAmount amount_param kwargs)
          = .error err) :
    (guardedCall engine tool_name amount_param raise_on_deny f args kwargs
        st audit).2.1 = st ∧
    guardedCall engine tool_name amount_param raise_on_deny f args kwargs
        st audit
      = guardedCall engine tool_name amount_param raise_on_deny g args kwargs
        st audit := by
  simp only [guardedCall, h]
  cases raise_on_deny <;> simp

/-- C1 witness: with `delete` disallowed, a guarded call leaves a call
counter at its initial value `0` (the body, which increments it, never
runs). -/
theorem claim_C1_witness :
    (guardedCall (PolicyEngine.init.add_policy "delete" none false [])
        "delete" (some "amount") false
        (fun _ _ (n : Nat) => FuncResult.ok (0 : Nat) (n + 1))
        [] [] 0 []).2.1 = 0 :=
  (claim_C1_denied_never_invokes_body
    (PolicyEngine.init.add_policy "delete" none false [])
    "delete" (some "amount") false
    (fun _ _ (n : Nat) => FuncResult.ok (0 : Nat) (n + 1))
    (fun _ _ n => FuncResult.ok 0 n)
    [] [] 0 [] (PermError.denied "delete") rfl).1

/-! ## Claim C2 — the amount ceiling is inclusive -/

/-- C2: for every policy registered with `max_amount = M` (and the default
`allowed=True` of `add_policy`), `validate(name, M)` returns `True` — the
boundary is inclusive — and for every amount strictly greater than `M`,
`validate` raises a `PermissionError` carrying the amount and the
maximum. -/
theorem claim_C2_ceiling_boundary_inclusive (e : PolicyEngine) (name : String)
    (M : Amount) (md : List (String × String)) :
    ((e.add_policy name (some M) true md).validate name (some M)
        = .ok true) ∧
    ∀ a : Amount, a > M →
      (e.add_policy name (some M) true md).validate name (some a)
        = .error (.limitExceeded name a M) := by
  constructor
  · simp [PolicyEngine.validate, add_policy_get_policy_self]
  · intro a ha
    simp [PolicyEngine.validate, add_policy_get_policy_self, ha]

/-- C2 witness: ceiling `1000`: validating `1000` passes and validating
`1500` raises with amount `1500` and maximum `1000`. -/
theorem claim_C2_witness :
    ((PolicyEngine.init.add_policy "transfer" (some 1000) true []).validate
        "transfer" (some 1000) = .ok true) ∧
    ((PolicyEngine.init.add_policy "transfer" (some 1000) true []).validate
        "transfer" (some 1500)
      = .error (.limitExceeded "transfer" 1500 1000)) :=
  ⟨(claim_C2_ceiling_boundary_inclusive PolicyEngine.init "transfer" 1000 []).1,
   (claim_C2_ceiling_boundary_inclusive PolicyEngine.init "transfer" 1000 []).2
     1500 (by decide)⟩

/-! ## Claim C3 — fail-open returns a denial string, fail-closed raises -/

/-- C3: for every denied guarded call, with `raise_on_deny = true` the call
raises the `PermissionError`; with `raise_on_deny = false` (the default)
it returns the human-readable denial string, which names the operation and
contains the denial keyword "BLOCKED", instead of raising. -/
theorem claim_C3_fail_open_fail_closed {α σ : Type}
    (engine : PolicyEngine) (tool_name : String) (amount_param : Option String)
    (f : List Amount → List (String × Amount) → σ → FuncResult α σ)
    (args : List Amount) (kwargs : List (String × Amount))
    (st : σ) (audit : List AuditEvent) (err : PermError)
    (h : engine.validate tool_name (extractAmount amount_param kwargs)
          = .error err) :
    ((guardedCall engine tool_name amount_param true f args kwargs
        st audit).1 = .raisedPerm err) ∧
    ((guardedCall engine tool_name amount_param false f args kwargs
        st audit).1 = .denialMessage (denialString tool_name)) ∧
    (∃ pre post, denialString tool_name = pre ++ tool_name ++ post) ∧
    (∃ pre post, denialString tool_name = pre ++ "BLOCKED" ++ post) := by
  refine ⟨?_, ?_, denialString_contains_tool_name tool_name,
    denialString_contains_blocked tool_name⟩
  · simp [guardedCall, h]
  · simp [guardedCall, h]

/-- C3 witness: an over-limit `transfer` of `1500` against a ceiling of
`1000` raises when `raise_on_deny` is true and returns the denial sentinel
when it is false. -/
theorem claim_C3_witness :
    ((guardedCall (PolicyEngine.init.add_policy "transfer" (some 1000) true [])
        "transfer" (some "amount") true
        (fun _ _ (n : Nat) => FuncResult.ok (0 : Nat) n)
        [] [("amount", 1500)] 0 []).1
      = .raisedPerm (.limitExceeded "transfer" 1500 1000)) ∧
    ((guardedCall (PolicyEngine.init.add_policy "transfer" (some 1000) true [])
        "transfer" (some "amount") false
        (fun _ _ (n : Nat) => FuncResult.ok (0 : Nat) n)
        [] [("amount", 1500)] 0 []).1
      = .denialMessage (denialString "transfer")) := by
  have h := claim_C3_fail_open_fail_closed
    (PolicyEngine.init.add_policy "transfer" (some 1000) true [])
    "transfer" (some "amount")
    (fun _ _ (n : Nat) => FuncResult.ok (0 : Nat) n)
    [] [("amount", 1500)] 0 []
    (PermError.limitExceeded "transfer" 1500 1000)
    (by simp [PolicyEngine.validate, add_policy_get_policy_self,
      extractAmount, List.lookup, show ("amount".isEmpty) = false from rfl,
      show ((1000 : ℚ) < 1500) from by decide])
  exact ⟨h.1, h.2.1⟩

/-! ## Claim C10 — the amount is read only from keyword arguments -/

/-- C10: the guard reads the amount only from keyword arguments.  When the
amount is passed positionally (or under a name other than the configured
`amount_param`), the extracted amount is `None`, validation then depends
only on the `allowed` flag (the `max_amount` ceiling is not enforced), and
for an allowed policy the body is invoked with the original arguments no
matter how large the positional amount is. -/
theorem claim_C10_amount_only_from_kwargs {α σ : Type}
    (engine : PolicyEngine) (tool_name : String) (p : String)
    (raise_on_deny : Bool)
    (f : List Amount → List (String × Amount) → σ → FuncResult α σ)
    (args : List Amount) (kwargs : List (String × Amount))
    (st : σ) (audit : List AuditEvent)
    (hk : kwargs.lookup p = none) :
    extractAmount (some p) kwargs = none ∧
    (engine.validate tool_name none
      = if (engine.get_policy tool_name).allowed then .ok true
        else .error (.denied tool_name)) ∧
    ((engine.get_policy tool_name).allowed = true →
      ∀ (r : α) (st₁ : σ), f args kwargs st = .ok r st₁ →
        (guardedCall engine tool_name (some p) raise_on_deny f args kwargs
            st audit).1 = .success r ∧
        (guardedCall engine tool_name (some p) raise_on_deny f args kwargs
            st audit).2.1 = st₁) := by
  have hext : extractAmount (some p) kwargs = none := by
    by_cases hp : p.isEmpty <;> simp [extractAmount, hp, hk]
  refine ⟨hext, ?_, ?_⟩
  · by_cases hall : (engine.get_policy tool_name).allowed <;>
      simp [PolicyEngine.validate, hall]
  · intro hall r st₁ hf
    have hval : engine.validate tool_name (extractAmount (some p) kwargs)
        = .ok true := by
      simp [hext, PolicyEngine.validate, hall]
    simp [guardedCall, hval, hf]

/-- C10 witness: `transfer` has ceiling `1000` but the amount `1500` is
passed positionally, so the call succeeds and the body runs on `1500`. -/
theorem claim_C10_witness :
    List.lookup "amount" ([] : List (String × Amount)) = none ∧
    ((guardedCall (PolicyEngine.init.add_policy "transfer" (some 1000) true [])
        "transfer" (some "amount") false
        (fun as _ (n : Nat) => FuncResult.ok (as.headD 0) n)
        [1500] [] 0 []).1 = .success 1500) :=
  ⟨rfl,
   ((claim_C10_amount_only_from_kwargs
      (PolicyEngine.init.add_policy "transfer" (some 1000) true [])
      "transfer" "amount" false
      (fun as _ (n : Nat) => FuncResult.ok (as.headD 0) n)
      [1500] [] 0 [] rfl).2.2 rfl 1500 0 rfl).1⟩

/-! ## ledger.py — WAL, in-memory queue and the shipping worker

The SQLite WAL table `wal_entries (id, event_type, data, metadata,
timestamp, sent)` is embedded as a list of rows in storage order together
with the AUTOINCREMENT counter.  JSON encoding of the `data` and
`metadata` dicts round-trips (`json.dumps` then `json.loads`), so both are
embedded as opaque strings.  The `asyncio.Queue` is embedded as a list
with its `maxsize`; per the asyncio semantics, `await queue.put(item)`
suspends when the queue is full (`maxsize` entries, `maxsize = 0` meaning
unbounded) and never raises `asyncio.QueueFull` — only `put_nowait` does. -/

/-- One row of the `wal_entries` table. -/
structure WalRow where
  id : Nat
  event_type : String
  data : String
  metadata : String
  timestamp : String
  sent : Bool
deriving DecidableEq

/-- The `wal_entries` table: rows in storage order plus the AUTOINCREMENT
counter (SQLite row ids start at 1). -/
structure Wal where
  rows : List WalRow
  nextId : Nat
deriving DecidableEq

/-- A freshly created WAL database (`_wal_init`). -/
def Wal.empty : Wal := ⟨[], 1⟩

/-- Embedding of `_wal_insert`: INSERT one row with `sent = 0`, commit, and
return the new row id (`cur.lastrowid`). -/
def walInsert (w : Wal) (event_type data metadata timestamp : String) :
    Wal × Nat :=
  (⟨w.rows ++ [⟨w.nextId, event_type, data, metadata, timestamp, false⟩],
    w.nextId + 1⟩,
   w.nextId)

/-- ORDER BY id, as an insertion sort on the id column. -/
def insertById (r : WalRow) : List WalRow → List WalRow
  | [] => [r]
  | x :: xs => if r.id ≤ x.id then r :: x :: xs else x :: insertById r xs

/-- Sort rows by ascending id (the ORDER BY of `_wal_get_unsent`). -/
def sortById (l : List WalRow) : List WalRow := l.foldr insertById []

/-- Embedding of `_wal_get_unsent`:
SELECT rows WHERE `sent = 0` ORDER BY id. -/
def walGetUnsent (w : Wal) : List WalRow :=
  sortById (w.rows.filter (fun r => !r.sent))

/-- Embedding of `_wal_mark_sent` (despite its name it DELETEs the given
row ids). -/
def walDeleteIds (w : Wal) (ids : List Nat) : Wal :=
  { w with rows := w.rows.filter (fun r => !ids.contains r.id) }

/-- In-memory log-entry dict as built by `AsyncLedger.log` and
`_wal_rows_to_entries`; `wal_id` is the `_wal_id` key, present once the
WAL write has returned. -/
structure LogEntry where
  event_type : String
  data : String
  metadata : String
  timestamp : String
  wal_id : Option Nat
deriving DecidableEq

/-- Embedding of `_wal_rows_to_entries` for one row. -/
def walRowToEntry (r : WalRow) : LogEntry :=
  ⟨r.event_type, r.data, r.metadata, r.timestamp, some r.id⟩

/-- State of one `AsyncLedger` instance: the WAL database, the bounded
in-memory `asyncio.Queue`, and the worker's `_pending_logs` batch buffer.
The HTTP client is external; the batch-send outcome is an input
(`SendResult`) to the transitions that use it. -/
structure AsyncLedger where
  wal : Wal
  queue : List LogEntry
  queueMaxsize : Nat
  pending : List LogEntry
  batchSize : Nat
deriving DecidableEq

/-- What `AsyncLedger.log` does with its entry after the WAL write, under
asyncio queue semantics: the entry is enqueued, or the coroutine suspends
because the queue is full.  `raisedQueueFull` embeds the
`except asyncio.QueueFull` branch of the source, so that its
(un)reachability can be stated. -/
inductive LogOutcome where
  | enqueued
  | blockedWaiting
  | raisedQueueFull
deriving DecidableEq

/-- Embedding of `AsyncLedger.log`: build the entry, perform the blocking
WAL insert (obtaining the row id) BEFORE touching the in-memory queue,
attach `_wal_id`, then `await queue.put(entry)` — which appends when the
queue has room and suspends (without enqueuing, and without raising) when
it is full.  The `except asyncio.QueueFull` branch of the source is never
taken because the awaited `put` suspends instead of raising. -/
def AsyncLedger.log (s : AsyncLedger)
    (event_type data metadata timestamp : String) :
    LogOutcome × AsyncLedger :=
  let p := walInsert s.wal event_type data metadata timestamp
  let entry : LogEntry := ⟨event_type, data, metadata, timestamp, some p.2⟩
  if s.queueMaxsize = 0 ∨ s.queue.length < s.queueMaxsize then
    (.enqueued, { s with wal := p.1, queue := s.queue ++ [entry] })
  else
    (.blockedWaiting, { s with wal := p.1 })

/-- Outcome of one `POST` of a batch: `is_success` (2xx), or failure —
covering both a non-2xx response and a raised transport error, which the
source handles identically (log and return, deleting nothing). -/
inductive SendResult where
  | success
  | failure
deriving DecidableEq

/-- Embedding of `AsyncLedger._send_batch`: collect the `_wal_id`s (Python
truthiness drops a hypothetical id 0), POST the batch; on success delete
exactly those WAL rows (and `task_done` the queue items); on a non-2xx
response or transport error, log and return — the WAL rows are not
deleted and the in-memory batch is left to the caller. -/
def AsyncLedger.sendBatch (s : AsyncLedger) (res : SendResult)
    (logs : List LogEntry) : AsyncLedger :=
  let wal_ids := logs.filterMap (fun e =>
    match e.wal_id with
    | some i => if i = 0 then none else some i
    | none => none)
  match res with
  | .success => { s with wal := walDeleteIds s.wal wal_ids }
  | .failure => s

/-- Embedding of one iteration of `AsyncLedger._worker`: collect entries
from the queue into `_pending_logs` until the batch is full or the flush
interval elapses (`arrived` is how many entries the queue yields before
the deadline); if the batch is non-empty, `_send_batch` it and then —
unconditionally, whether or not the send succeeded — clear
`_pending_logs`. -/
def AsyncLedger.workerIteration (s : AsyncLedger) (res : SendResult)
    (arrived : Nat) : AsyncLedger :=
  let room := s.batchSize - s.pending.length
  let n := min (min arrived room) s.queue.length
  let s₁ := { s with queue := s.queue.drop n,
                     pending := s.pending ++ s.queue.take n }
  if s₁.pending.isEmpty then s₁
  else
    let s₂ := s₁.sendBatch res s₁.pending
    { s₂ with pending := [] }

/-- Embedding of `AsyncLedger.start` for a fresh instance over an existing
WAL file: read all unsent rows ordered by id and re-queue them before the
worker starts.  The recovery loop `await`s `queue.put`, so if the unsent
backlog exceeds the queue capacity the coroutine suspends forever (the
worker that would drain the queue is only created afterwards); that stuck
case is `none`. -/
def AsyncLedger.start (wal : Wal) (queueMaxsize batchSize : Nat) :
    Option AsyncLedger :=
  let recovered := (walGetUnsent wal).map walRowToEntry
  if queueMaxsize ≠ 0 ∧ queueMaxsize < recovered.length then
    none
  else
    some ⟨wal, recovered, queueMaxsize, [], batchSize⟩

/-! ## WAL invariant: rows are stored in strictly increasing id order -/

/-- Representation invariant of the append-only WAL: the stored row order
is the insertion order (strictly increasing ids), and every id is below
the AUTOINCREMENT counter. -/
def Wal.Inv (w : Wal) : Prop :=
  w.rows.Pairwise (fun a b => a.id < b.id) ∧ ∀ r ∈ w.rows, r.id < w.nextId

theorem Wal.empty_inv : Wal.empty.Inv := by
  constructor <;> simp [Wal.empty]

theorem walInsert_inv (w : Wal) (et d md ts : String) (h : w.Inv) :
    (walInsert w et d md ts).1.Inv := by
  obtain ⟨h₁, h₂⟩ := h
  constructor
  · simp only [walInsert, List.pairwise_append]
    refine ⟨h₁, by simp, ?_⟩
    intro a ha b hb
    simp only [List.mem_singleton] at hb
    subst hb
    exact h₂ a ha
  · intro r hr
    simp only [walInsert, List.mem_append, List.mem_singleton] at hr
    rcases hr with hr | hr
    · exact Nat.lt_succ_of_lt (h₂ r hr)
    · subst hr; exact Nat.lt_succ_self _

theorem walDeleteIds_inv (w : Wal) (ids : List Nat) (h : w.Inv) :
    (walDeleteIds w ids).Inv := by
  obtain ⟨h₁, h₂⟩ := h
  exact ⟨h₁.filter _, fun r hr => h₂ r (List.mem_of_mem_filter hr)⟩

/-- Inserting below every element of a list just prepends. -/
theorem insertById_lt_head (x : WalRow) (xs : List WalRow)
    (h : ∀ y ∈ xs, x.id < y.id) : insertById x xs = x :: xs := by
  cases xs with
  | nil => rfl
  | cons y ys =>
      have hle : x.id ≤ y.id := le_of_lt (h y (by simp))
      simp [insertById, hle]

/-- Sorting a list already in strictly increasing id order is the
identity: ORDER BY id returns append-only rows in insertion order. -/
theorem sortById_eq_self (l : List WalRow)
    (h : l.Pairwise (fun a b => a.id < b.id)) : sortById l = l := by
  induction l with
  | nil => rfl
  | cons x xs ih =>
      rw [List.pairwise_cons] at h
      obtain ⟨hx, hxs⟩ := h
      show insertById x (sortById xs) = x :: xs
      rw [ih hxs]
      exact insertById_lt_head x xs hx

/-- Under the WAL invariant, the unsent-rows query returns rows in the
stored (insertion) order. -/
theorem walGetUnsent_eq_filter (w : Wal) (h : w.Inv) :
    walGetUnsent w = w.rows.filter (fun r => !r.sent) :=
  sortById_eq_self _ (h.1.filter _)

/-! ## Claim C4 — durability precedes delivery -/

/-- Every entry visible in the in-memory queue refers to a committed WAL
row holding the same payload. -/
def AsyncLedger.backedByWal (s : AsyncLedger) : Prop :=
  ∀ e ∈ s.queue, ∃ r ∈ s.wal.rows,
    e.wal_id = some r.id ∧ r.event_type = e.event_type ∧
    r.data = e.data ∧ r.metadata = e.metadata ∧ r.timestamp = e.timestamp

/-- C4: `AsyncLedger.log` completes the blocking WAL write — the row is
committed and its id obtained — before the entry is put on the in-memory
queue: the row for the new entry is committed in every outcome of `log`
(even when the enqueue suspends), and if every queue entry was backed by a
committed WAL row before the call, the same holds after it, so every
entry the shipping worker can see is already durably persisted. -/
theorem claim_C4_durability_precedes_delivery (s : AsyncLedger)
    (et d md ts : String) (h : s.backedByWal) :
    ((s.log et d md ts).2).backedByWal ∧
    ∃ r ∈ (s.log et d md ts).2.wal.rows,
      r.id = s.wal.nextId ∧ r.event_type = et ∧ r.data = d ∧
      r.metadata = md ∧ r.timestamp = ts ∧ r.sent = false := by
  have hrow : (walInsert s.wal et d md ts).1.rows
      = s.wal.rows ++ [⟨s.wal.nextId, et, d, md, ts, false⟩] := rfl
  simp only [AsyncLedger.log]
  split_ifs with hq
  · constructor
    · intro e he
      simp only [List.mem_append, List.mem_singleton] at he
      rcases he with he | he
      · obtain ⟨r, hr, hp⟩ := h e he
        refine ⟨r, ?_, hp⟩
        rw [hrow]
        exact List.mem_append_left _ hr
      · subst he
        refine ⟨⟨s.wal.nextId, et, d, md, ts, false⟩, ?_, by simp [walInsert]⟩
        rw [hrow]
        exact List.mem_append_right _ (by simp)
    · refine ⟨⟨s.wal.nextId, et, d, md, ts, false⟩, ?_, by simp [walInsert]⟩
      rw [hrow]
      exact List.mem_append_right _ (by simp)
  · constructor
    · intro e he
      obtain ⟨r, hr, hp⟩ := h e he
      refine ⟨r, ?_, hp⟩
      rw [hrow]
      exact List.mem_append_left _ hr
    · refine ⟨⟨s.wal.nextId, et, d, md, ts, false⟩, ?_, by simp [walInsert]⟩
      rw [hrow]
      exact List.mem_append_right _ (by simp)

/-- C4 witness: logging on a fresh ledger (empty queue, capacity 2) leaves
every queued entry WAL-backed. -/
theorem claim_C4_witness :
    ((AsyncLedger.mk Wal.empty [] 2 [] 10).log
        "transfer.success" "d" "m" "t").2.backedByWal :=
  (claim_C4_durability_precedes_delivery
    (AsyncLedger.mk Wal.empty [] 2 [] 10) "transfer.success" "d" "m" "t"
    (by intro e he; simp at he)).1

/-! ## Claim C5 — behavior of a failed batch send

The claim has three parts: (a) on failure the WAL rows are not deleted —
true; (b) the failed entries are retried on the next worker loop iteration
within the same process run — FALSE: `_worker` clears `_pending_logs`
unconditionally after `_send_batch` returns, and `_send_batch` swallows
the failure, so the failed entries leave every in-memory structure and are
only recovered from the WAL by a restart; (c) after a restart, `start()`
re-queues them in original insertion order — true. -/

/-- C5 counterexample data: one durably logged entry sitting in the queue
of a running ledger. -/
def c5Row : WalRow := ⟨1, "transfer.success", "data", "meta", "ts", false⟩

/-- C5 counterexample data: the ledger state before the failed send. -/
def c5State : AsyncLedger :=
  ⟨⟨[c5Row], 2⟩, [walRowToEntry c5Row], 1000, [], 10⟩

/-- C5 counterexample data: the state after one worker iteration whose
batch send fails. -/
def c5After : AsyncLedger := c5State.workerIteration .failure 5

/-- C5 counterexample: after a failed batch send, the entry is in neither
`_pending_logs` nor the queue, so the next worker loop iteration has
nothing to retry — even with a healthy network it sends nothing and the
state (including the undeleted WAL row) is unchanged.  The claimed
within-run retry on the next loop iteration does not happen. -/
theorem claim_C5_counterexample :
    c5After.pending = [] ∧ c5After.queue = [] ∧ c5After.wal = c5State.wal ∧
    c5After.workerIteration .success 5 = c5After :=
  ⟨rfl, rfl, rfl, rfl⟩

/-- C5 (amended): when a batch send fails, no WAL row is deleted (the
ledger state is unchanged by `_send_batch`), and after a process restart
`start()` re-queues exactly the unsent WAL entries in original insertion
order; within the same process run, however, the failed entries are
dropped from the in-memory pipeline (`_pending_logs` is cleared after the
failed send) and are not retried until such a restart. -/
theorem claim_C5_failed_send_keeps_wal_restart_replays_in_order
    (s : AsyncLedger) (logs : List LogEntry)
    (w : Wal) (qm bs : Nat) (s' : AsyncLedger)
    (hw : w.Inv) (hstart : AsyncLedger.start w qm bs = some s') :
    s.sendBatch .failure logs = s ∧
    s'.queue = (w.rows.filter (fun r => !r.sent)).map walRowToEntry ∧
    s'.pending = [] := by
  refine ⟨rfl, ?_⟩
  simp only [AsyncLedger.start] at hstart
  split_ifs at hstart with hfull
  simp only [Option.some.injEq] at hstart
  subst hstart
  refine ⟨?_, rfl⟩
  show List.map walRowToEntry (walGetUnsent w) = _
  rw [walGetUnsent_eq_filter w hw]

/-- C5 witness for the amended claim: a failed send of the recovered batch
leaves the one-row WAL intact, and a fresh `start()` over that WAL
re-queues exactly that entry. -/
theorem claim_C5_witness :
    ((AsyncLedger.mk ⟨[c5Row], 2⟩ [] 1000 [] 10).sendBatch .failure
        [walRowToEntry c5Row]
      = AsyncLedger.mk ⟨[c5Row], 2⟩ [] 1000 [] 10) ∧
    ∀ s', AsyncLedger.start ⟨[c5Row], 2⟩ 1000 10 = some s' →
      s'.queue = [walRowToEntry c5Row] := by
  constructor
  · exact (claim_C5_failed_send_keeps_wal_restart_replays_in_order
      (AsyncLedger.mk ⟨[c5Row], 2⟩ [] 1000 [] 10) [walRowToEntry c5Row]
      ⟨[c5Row], 2⟩ 1000 10
      (AsyncLedger.mk ⟨[c5Row], 2⟩ [walRowToEntry c5Row] 1000 [] 10)
      ⟨by simp [c5Row], by simp [c5Row]⟩ rfl).1
  · intro s' hs'
    have h := (claim_C5_failed_send_keeps_wal_restart_replays_in_order
      (AsyncLedger.mk ⟨[c5Row], 2⟩ [] 1000 [] 10) [walRowToEntry c5Row]
      ⟨[c5Row], 2⟩ 1000 10 s'
      ⟨by simp [c5Row], by simp [c5Row]⟩ hs').2.1
    rw [h]
    rfl

/-! ## Claim C6 — a full queue blocks `log` instead of raising

`AsyncLedger.log` performs `await self._queue.put(entry)`.  Under asyncio
semantics an awaited `put` on a full queue suspends until a slot frees and
never raises `asyncio.QueueFull` (only `put_nowait` raises), so the
`except asyncio.QueueFull` branch in the source — whose log message and
re-raise show the intended backpressure exception — is unreachable, and no
`QueueFullError` class exists anywhere in the SDK.  The entry is still
never silently dropped: its WAL row is committed before the enqueue. -/

/-- C6 failing input: a ledger whose queue (capacity 1) is already full. -/
def c6State : AsyncLedger :=
  ⟨Wal.empty, [⟨"e", "d", "m", "t", none⟩], 1, [], 10⟩

/-- C6: evaluating `log` at the failing input (queue full): the call
suspends on the queue rather than raising — the `raisedQueueFull` outcome
embedding the source's `except asyncio.QueueFull` branch is not produced —
while the entry has already been durably committed to the WAL (no silent
drop). -/
theorem claim_C6_full_queue_blocks_rather_than_raises :
    ((c6State.log "transfer.success" "d" "m" "t").1 = .blockedWaiting) ∧
    ((c6State.log "transfer.success" "d" "m" "t").1 ≠ .raisedQueueFull) ∧
    ((c6State.log "transfer.success" "d" "m" "t").2.wal.rows
      = [⟨1, "transfer.success", "d", "m", "t", false⟩]) :=
  ⟨rfl, by decide, rfl⟩

/-! ## identity.py and identity_store.py — Ed25519 identity

The Ed25519 primitive lives in the external `cryptography` library, which
the repository calls but does not implement; it is embedded here as the
standard ideal (symbolic) signature scheme: a key is identified by its
seed, a signature determines the signing key and the signed message, and
verification succeeds exactly for the matching public key and message.
UTF-8 encoding of messages is injective, so messages stay `String`.  The
structure of `IdentityManager` itself (argument defaulting, `try/except`
to Boolean, error wrapping, password truthiness) is embedded directly from
the source. -/

/-- Symbolic Ed25519 private key (identified by its seed). -/
structure Ed25519PrivateKey where
  seed : Nat
deriving DecidableEq

/-- Symbolic Ed25519 public key (determined by the private key seed). -/
structure Ed25519PublicKey where
  owner : Nat
deriving DecidableEq

/-- The `private_key.public_key()` derivation. -/
def Ed25519PrivateKey.public_key (k : Ed25519PrivateKey) : Ed25519PublicKey :=
  ⟨k.seed⟩

/-- Symbolic Ed25519 signature over a message. -/
structure Signature where
  signerSeed : Nat
  message : String
deriving DecidableEq

/-- Ideal-model `private_key.sign(message_bytes)`: deterministic per key
and message. -/
def ed25519Sign (k : Ed25519PrivateKey) (message : String) : Signature :=
  ⟨k.seed, message⟩

/-- Ideal-model `public_key.verify(signature, message_bytes)`, as the
Boolean "no exception was raised": verification succeeds exactly when the
signature was produced over this very message by the private key matching
this public key. -/
def ed25519Verify (pk : Ed25519PublicKey) (sig : Signature)
    (message : String) : Bool :=
  sig.signerSeed == pk.owner && sig.message == message

/-- Embedding of `IdentityManager`: holds the private key (the public key
is derived from it in `__init__`). -/
structure IdentityManager where
  private_key : Ed25519PrivateKey
deriving DecidableEq

/-- The `public_key` property. -/
def IdentityManager.public_key (im : IdentityManager) : Ed25519PublicKey :=
  im.private_key.public_key

/-- The `public_key_hex` property (hex encoding abstracted to a canonical
rendering of the symbolic key; only equality of keys matters here). -/
def IdentityManager.public_key_hex (im : IdentityManager) : String :=
  toString im.public_key.owner

/-- Embedding of `IdentityManager.sign_message`. -/
def IdentityManager.sign_message (im : IdentityManager) (message : String) :
    Signature :=
  ed25519Sign im.private_key message

/-- Embedding of `IdentityManager.verify_signature`: verify against the
supplied key, falling back to the manager's own public key
(`public_key or self._public_key`); the body is wrapped in a `try/except`
returning `False`, so the function is total with a Boolean result — an
invalid signature yields `false`, never an exception. -/
def IdentityManager.verify_signature (im : IdentityManager) (message : String)
    (signature : Signature) (public_key : Option Ed25519PublicKey) : Bool :=
  ed25519Verify (public_key.getD im.public_key) signature message

/-- Python `bytes` values. -/
abbrev Bytes := List Nat

/-- UTF-8 encoding of a string, modeled on code points (injective). -/
def strEncode (s : String) : Bytes := s.data.map Char.toNat

/-- The encryption applied by `private_bytes` when serializing to PEM. -/
inductive PemEncryption where
  | noEncryption
  | bestAvailable (password : Bytes)
deriving DecidableEq

/-- The PEM/PKCS8 container produced by `export_private_key`:
symbolically, the serialized key together with the encryption applied; an
encrypted container yields its key only to the matching password
(authenticated encryption). -/
structure PemContainer where
  encryption : PemEncryption
  key : Ed25519PrivateKey
deriving DecidableEq

/-- Embedding of `IdentityManager.export_private_key`: a truthy (non-empty)
password selects `BestAvailableEncryption(password)`; `None` — and, by
Python truthiness, the empty byte string — selects `NoEncryption`. -/
def IdentityManager.export_private_key (im : IdentityManager)
    (password : Option Bytes) : PemContainer :=
  match password with
  | some pw =>
      if pw.isEmpty then ⟨.noEncryption, im.private_key⟩
      else ⟨.bestAvailable pw, im.private_key⟩
  | none => ⟨.noEncryption, im.private_key⟩

/-- Model of the external `load_pem_private_key`: an unencrypted container
loads only when no password is supplied (a supplied password — even the
empty byte string — raises `TypeError`); an encrypted container requires
exactly the encrypting password, and a wrong password raises (it can never
silently yield a different key). -/
def load_pem_private_key (pem : PemContainer) (password : Option Bytes) :
    Except String Ed25519PrivateKey :=
  match pem.encryption, password with
  | .noEncryption, none => .ok pem.key
  | .noEncryption, some _ =>
      .error "Password was given but private key is not encrypted."
  | .bestAvailable _, none =>
      .error "Password was not given but private key is encrypted."
  | .bestAvailable pw, some p =>
      if p = pw then .ok pem.key
      else .error "Bad decrypt. Incorrect password?"

/-- Embedding of `HashedCryptoError` from `exceptions.py`. -/
structure HashedCryptoError where
  message : String
deriving DecidableEq

/-- Embedding of `IdentityManager.from_private_key_bytes`: load the PEM
container and wrap any failure in `HashedCryptoError`; the Ed25519
instance check always passes for an Ed25519 container. -/
def IdentityManager.from_private_key_bytes (pem : PemContainer)
    (password : Option Bytes) : Except HashedCryptoError IdentityManager :=
  match load_pem_private_key pem password with
  | .ok k => .ok ⟨k⟩
  | .error m => .error ⟨"Failed to load private key: " ++ m⟩

/-- Boolean success test for `Except` results. -/
def exceptIsOk {ε α : Type} : Except ε α → Bool
  | .ok _ => true
  | .error _ => false

/-- A file on disk as written by `save_identity`: the PEM bytes and the
POSIX permission bits set by `os.chmod`. -/
structure SavedIdentityFile where
  contents : PemContainer
  mode : Nat
deriving DecidableEq

/-- Embedding of `identity_store.save_identity` for a fresh path (the
exists/overwrite check passes): encode the password if one was supplied —
`password.encode("utf-8") if password else None`, so `None` and the empty
string both mean no password — export the private key with it, write the
bytes, then chmod 0600. -/
def save_identity (identity : IdentityManager) (password : Option String) :
    SavedIdentityFile :=
  let password_bytes : Option Bytes :=
    match password with
    | some p => if p.isEmpty then none else some (strEncode p)
    | none => none
  ⟨identity.export_private_key password_bytes, 0o600⟩

/-- Embedding of `identity_store.load_identity` for an existing file: the
same password truthiness, then `from_private_key_bytes`, re-wrapping any
failure in `HashedCryptoError` (the file path in the message is
omitted). -/
def load_identity (file : SavedIdentityFile) (password : Option String) :
    Except HashedCryptoError IdentityManager :=
  let password_bytes : Option Bytes :=
    match password with
    | some p => if p.isEmpty then none else some (strEncode p)
    | none => none
  match IdentityManager.from_private_key_bytes file.contents password_bytes with
  | .ok im => .ok im
  | .error e => .error ⟨"Failed to load identity: " ++ e.message⟩

/-! ## Claim C7 — signature round trip -/

/-- C7: for every identity and non-empty message, verifying the signature
of the message against the signer's public key (passed explicitly or
defaulted) returns `true`; verification against a different public key,
or of a tampered (different) message, returns `false`; and
`verify_signature` is a total Boolean function — an invalid signature
yields `false` rather than an exception. -/
theorem claim_C7_signature_round_trip (im other : IdentityManager)
    (msg msg₂ : String) (pk₂ : Ed25519PublicKey) (hmsg : msg ≠ "") :
    (im.verify_signature msg (im.sign_message msg) (some im.public_key)
      = true) ∧
    (im.verify_signature msg (im.sign_message msg) none = true) ∧
    (pk₂ ≠ im.public_key →
      other.verify_signature msg (im.sign_message msg) (some pk₂) = false) ∧
    (msg₂ ≠ msg →
      im.verify_signature msg₂ (im.sign_message msg) (some im.public_key)
        = false) := by
  refine ⟨?_, ?_, ?_, ?_⟩
  · simp [IdentityManager.verify_signature, IdentityManager.sign_message,
      ed25519Verify, ed25519Sign, IdentityManager.public_key,
      Ed25519PrivateKey.public_key]
  · simp [IdentityManager.verify_signature, IdentityManager.sign_message,
      ed25519Verify, ed25519Sign, IdentityManager.public_key,
      Ed25519PrivateKey.public_key]
  · intro hpk
    have howner : im.private_key.seed ≠ pk₂.owner := by
      intro hcontra
      apply hpk
      cases pk₂
      cases hcontra
      rfl
    simp [IdentityManager.verify_signature, IdentityManager.sign_message,
      ed25519Verify, ed25519Sign, howner]
  · intro hne
    simp only [IdentityManager.verify_signature, IdentityManager.sign_message,
      ed25519Verify, ed25519Sign, Option.getD_some, Bool.and_eq_false_iff,
      beq_eq_false_iff_ne, ne_eq]
    exact Or.inr fun hcontra => hne hcontra.symm

/-- C7 witness: a concrete identity signs "hello"; the signature verifies
under its own key and fails under a different key and on a tampered
message. -/
theorem claim_C7_witness :
    ((IdentityManager.mk ⟨7⟩).verify_signature "hello"
        ((IdentityManager.mk ⟨7⟩).sign_message "hello")
        (some (IdentityManager.mk ⟨7⟩).public_key) = true) ∧
    ((IdentityManager.mk ⟨7⟩).verify_signature "hello"
        ((IdentityManager.mk ⟨7⟩).sign_message "hello")
        (some (Ed25519PublicKey.mk 8)) = false) ∧
    ((IdentityManager.mk ⟨7⟩).verify_signature "hellp"
        ((IdentityManager.mk ⟨7⟩).sign_message "hello")
        (some (IdentityManager.mk ⟨7⟩).public_key) = false) := by
  have h := claim_C7_signature_round_trip (IdentityManager.mk ⟨7⟩)
    (IdentityManager.mk ⟨7⟩) "hello" "hellp" (Ed25519PublicKey.mk 8)
    (by decide)
  exact ⟨h.1, h.2.2.1 (by decide), h.2.2.2 (by decide)⟩

/-! ## Claim C8 — encrypted export/import round trip

The claim quantifies over every password.  It fails for the empty byte
string: `export_private_key(b"")` hits Python falsiness (`if password:`)
and serializes with `NoEncryption`, while `from_private_key_bytes(pem,
b"")` passes the non-`None` empty password to `load_pem_private_key`,
which raises for a password supplied with an unencrypted key — so the
same-password round trip errors instead of recovering the key.  For every
other password (including none at all) the round trip is exact, and any
wrong password fails with `CryptoError`. -/

/-- C8 counterexample: with the empty byte-string password, export uses
`NoEncryption` and importing with that same password fails — the
round trip of the claim does not hold at `password = b""`. -/
theorem claim_C8_counterexample :
    (((IdentityManager.mk ⟨0⟩).export_private_key (some [])).encryption
      = .noEncryption) ∧
    (exceptIsOk (IdentityManager.from_private_key_bytes
        ((IdentityManager.mk ⟨0⟩).export_private_key (some []))
        (some [])) = false) :=
  ⟨rfl, rfl⟩

/-- C8 (amended): for every identity and every password other than the
empty byte string (including no password), importing the bytes produced by
export with the same password recovers an identity with the same public
key; importing with any different password fails with `CryptoError` and
never silently returns a different key. -/
theorem claim_C8_export_import_round_trip (im : IdentityManager)
    (password : Option Bytes) (hpw : password ≠ some []) :
    (∃ im', IdentityManager.from_private_key_bytes
        (im.export_private_key password) password = .ok im' ∧
      im'.public_key = im.public_key ∧
      im'.public_key_hex = im.public_key_hex) ∧
    (∀ p', p' ≠ password →
      ∃ e, IdentityManager.from_private_key_bytes
        (im.export_private_key password) p' = .error e) := by
  constructor
  · refine ⟨⟨im.private_key⟩, ?_, rfl, rfl⟩
    match password with
    | none =>
        simp [IdentityManager.export_private_key,
          IdentityManager.from_private_key_bytes, load_pem_private_key]
    | some pw =>
        have hne : ¬pw.isEmpty := by
          cases pw with
          | nil => exact absurd rfl hpw
          | cons a l => simp
        simp [IdentityManager.export_private_key, hne,
          IdentityManager.from_private_key_bytes, load_pem_private_key]
  · intro p' hp'
    match password, p' with
    | none, none => exact absurd rfl hp'
    | none, some q =>
        exact ⟨⟨"Failed to load private key: " ++
          "Password was given but private key is not encrypted."⟩, rfl⟩
    | some pw, none =>
        have hne : ¬pw.isEmpty := by
          cases pw with
          | nil => exact absurd rfl hpw
          | cons a l => simp
        refine ⟨⟨"Failed to load private key: " ++
          "Password was not given but private key is encrypted."⟩, ?_⟩
        simp [IdentityManager.export_private_key, hne,
          IdentityManager.from_private_key_bytes, load_pem_private_key]
    | some pw, some q =>
        have hne : ¬pw.isEmpty := by
          cases pw with
          | nil => exact absurd rfl hpw
          | cons a l => simp
        have hqpw : ¬q = pw := by
          intro hcontra
          exact hp' (by rw [hcontra])
        refine ⟨⟨"Failed to load private key: " ++
          "Bad decrypt. Incorrect password?"⟩, ?_⟩
        simp [IdentityManager.export_private_key, hne,
          IdentityManager.from_private_key_bytes, load_pem_private_key, hqpw]

/-- C8 witness: the round trip with password `[1, 2]` recovers the key,
and importing with `[3]` fails with a `CryptoError`. -/
theorem claim_C8_witness :
    (∃ im', IdentityManager.from_private_key_bytes
        ((IdentityManager.mk ⟨5⟩).export_private_key (some [1, 2]))
        (some [1, 2]) = .ok im' ∧
      im'.public_key = (IdentityManager.mk ⟨5⟩).public_key ∧
      im'.public_key_hex = (IdentityManager.mk ⟨5⟩).public_key_hex) ∧
    (∃ e, IdentityManager.from_private_key_bytes
        ((IdentityManager.mk ⟨5⟩).export_private_key (some [1, 2]))
        (some [3]) = .error e) := by
  have h := claim_C8_export_import_round_trip (IdentityManager.mk ⟨5⟩)
    (some [1, 2]) (by simp)
  exact ⟨h.1, h.2 (some [3]) (by simp)⟩

/-! ## Claim C9 — default save writes the private key unencrypted

The claim says that without an explicit password the private key is never
serialized unencrypted to disk.  The code does the opposite:
`save_identity(identity, path)` with no password calls
`export_private_key(password=None)`, which selects `NoEncryption()`, and
writes the resulting plaintext PEM to the file (with 0600 permissions). -/

/-- C9 counterexample: saving a concrete identity with no password writes
the plaintext (unencrypted) private key to durable storage. -/
theorem claim_C9_counterexample :
    (save_identity (IdentityManager.mk ⟨0⟩) none).contents
      = ⟨.noEncryption, ⟨0⟩⟩ :=
  rfl

/-- C9 (amended): saving an identity without an explicit password (or with
the empty string, which Python truthiness treats the same) writes the
private key unencrypted — a `NoEncryption` PEM containing the private key
— to disk with owner-only 0600 permissions; the key is encrypted at rest
only when a non-empty password is supplied. -/
theorem claim_C9_default_save_is_plaintext (im : IdentityManager) :
    ((save_identity im none).contents.encryption = .noEncryption) ∧
    ((save_identity im none).contents.key = im.private_key) ∧
    ((save_identity im none).mode = 0o600) ∧
    ((save_identity im (some "")).contents.encryption = .noEncryption) ∧
    (∀ p : String, ¬p.isEmpty →
      (save_identity im (some p)).contents.encryption
        = .bestAvailable (strEncode p)) := by
  refine ⟨rfl, rfl, rfl, rfl, ?_⟩
  intro p hp
  have hpe : p ≠ "" := by
    intro hc
    subst hc
    exact hp rfl
  have hdata : p.data ≠ [] := fun hc => hpe (String.ext hc)
  simp [save_identity, IdentityManager.export_private_key, hp, strEncode,
    hdata]

/-- C9 witness: with password "pw" the saved container is encrypted with
that password. -/
theorem claim_C9_witness :
    (save_identity (IdentityManager.mk ⟨0⟩) (some "pw")).contents.encryption
      = .bestAvailable (strEncode "pw") :=
  (claim_C9_default_save_is_plaintext (IdentityManager.mk ⟨0⟩)).2.2.2.2
    "pw" (by decide)

end Hashed
